import Mathlib

/-!
# Verification of the `shop2.py` panel layout engine

A shallow embedding, in Lean 4, of the core of the wallcovering shop-drawing
program: the dimension model (feet / inches / sixteenth fractions), the panel
layout generators and their strategy selection (`calculate_panels`), the
split and width-override operations, the object anchoring solver
(`add_wall_object`) and the recomputation coordinator (`calculate`).

Conventions of the embedding:
* Python floats are modelled as exact rationals (`ℚ`); all float literals of
  the source (`0.001`, `1.05`, `0.01`, `0.94`, the sixteenth table) are exact
  decimal fractions.
* The sixteen fraction strings `"0", "1/16", …, "15/16"` offered by the UI
  dropdowns are indexed by their sixteenth numerator `k ∈ 0..15`.
* Presentation-only fields of the `Panel` dataclass (colors, border width)
  are omitted; the geometric and dimensional fields are kept.
* Python dicts are modelled as insertion-ordered association lists with the
  update/delete discipline of a dict.
-/

namespace Shop

/-- Embeds `fraction_to_decimal`: the UI fraction string `"k/16"` (with `"0"` for
`k = 0`) parsed to its numeric value `k/16`. -/
def fraction_to_decimal (k : ℕ) : ℚ := (k : ℚ) / 16

/-- Embeds `convert_to_inches(feet, inches, fraction_str)`: total inches
`feet * 12 + inches + fraction`. -/
def convert_to_inches (feet inches : ℤ) (k : ℕ) : ℚ :=
  (feet : ℚ) * 12 + (inches : ℚ) + fraction_to_decimal k

/-- Python's built-in `abs` on a rational value. -/
def pyabs (q : ℚ) : ℚ := if q < 0 then -q else q

lemma pyabs_eq_abs (q : ℚ) : pyabs q = |q| := by
  unfold pyabs
  rcases lt_or_le q 0 with h | h
  · rw [if_pos h, abs_of_neg h]
  · rw [if_neg (not_lt.mpr h), abs_of_nonneg h]

/-- The `min(fractions.keys(), key=lambda x: abs(x - fraction_decimal))` scan
of `convert_to_feet_inches_fraction`: the sixteen keys `k/16` are scanned in
ascending order and the first one at minimal distance wins, exactly as
Python's `min` over the insertion-ordered dict. -/
def closestSixteenth (fraction_decimal : ℚ) : ℕ :=
  (List.range 16).foldl
    (fun (best k : ℕ) =>
      if pyabs ((k : ℚ) / 16 - fraction_decimal) < pyabs ((best : ℚ) / 16 - fraction_decimal)
      then k
      else best)
    0

/-- Embeds `convert_to_feet_inches_fraction(total_inches)`: add the `0.001` epsilon,
split into feet (`int(t // 12)`), whole inches (`int(t % 12)`) and the closest
sixteenth; the source then carries `15/16`-and-above rounding into the next
inch (a branch whose guard `closest_decimal > 0.94` no sixteenth can satisfy)
and normalizes 12 inches into one more foot.  Returns
`(feet, whole inches, sixteenth numerator)`. -/
def convert_to_feet_inches_fraction (total_inches : ℚ) : ℤ × ℤ × ℕ :=
  let t := total_inches + 1 / 1000
  let feet := ⌊t / 12⌋
  let remaining_inches := t - 12 * ⌊t / 12⌋
  let whole_inches := ⌊remaining_inches⌋
  let fraction_decimal := remaining_inches - (whole_inches : ℚ)
  let closest := closestSixteenth fraction_decimal
  let carried :=
    if pyabs (fraction_decimal - (closest : ℚ) / 16) < 1 / 100 ∧
        (94 : ℚ) / 100 < (closest : ℚ) / 16
    then (whole_inches + 1, 0)
    else (whole_inches, closest)
  if carried.1 = 12 then (feet + 1, 0, carried.2) else (feet, carried.1, carried.2)

lemma range16 :
    List.range 16 = [0, 1, 2, 3, 4, 5, 6, 7, 8, 9, 10, 11, 12, 13, 14, 15] := rfl

/-- On inputs of the form `k/16 + 1/1000` with `k ≤ 15`, the ascending scan
returns `k` itself. -/
lemma closestSixteenth_sixteenth_eps :
    ∀ k : Fin 16, closestSixteenth (((k : ℕ) : ℚ) / 16 + 1 / 1000) = (k : ℕ) := by
  intro k
  fin_cases k <;> norm_num [closestSixteenth, range16, pyabs]

lemma closestSixteenth_eps : closestSixteenth (1 / 1000) = 0 := by
  have h := closestSixteenth_sixteenth_eps 0
  norm_num at h
  exact h

/-- Helper: the floor of an integer plus a fractional part in `[0, 1)`. -/
lemma floor_int_add_fract (z : ℤ) (x : ℚ) (h0 : 0 ≤ x) (h1 : x < 1) :
    ⌊(z : ℚ) + x⌋ = z := by
  rw [Int.floor_int_add, Int.floor_eq_zero_iff.mpr ⟨h0, h1⟩, add_zero]

/-- The generic round trip: converting `feet/inches/k` sixteenths to inches
and back reproduces the triple exactly. -/
lemma convert_round_trip_aux :
    ∀ (feet inches : ℤ) (k : ℕ), 0 ≤ feet → 0 ≤ inches → inches ≤ 11 → k ≤ 15 →
      convert_to_feet_inches_fraction (convert_to_inches feet inches k) =
        (feet, inches, k) := by
    intro feet inches k _ hi0 hi11 hk
    have hk15 : ((k : ℚ)) ≤ 15 := by exact_mod_cast hk
    have hk0 : (0 : ℚ) ≤ (k : ℚ) := by positivity
    have hiQ0 : (0 : ℚ) ≤ (inches : ℚ) := by exact_mod_cast hi0
    have hiQ11 : ((inches : ℚ)) ≤ 11 := by exact_mod_cast hi11
    have hfrac0 : (0 : ℚ) ≤ (k : ℚ) / 16 + 1 / 1000 := by linarith
    have hfrac1 : (k : ℚ) / 16 + 1 / 1000 < 1 := by linarith
    have ht : convert_to_inches feet inches k + 1 / 1000 =
        ((feet : ℚ)) * 12 + ((inches : ℚ) + ((k : ℚ) / 16 + 1 / 1000)) := by
      unfold convert_to_inches fraction_to_decimal
      ring
    have hfloor12 : ⌊(convert_to_inches feet inches k + 1 / 1000) / 12⌋ = feet := by
      rw [ht]
      have : (((feet : ℚ)) * 12 + ((inches : ℚ) + ((k : ℚ) / 16 + 1 / 1000))) / 12 =
          (feet : ℚ) + ((inches : ℚ) + ((k : ℚ) / 16 + 1 / 1000)) / 12 := by
        ring
      rw [this, floor_int_add_fract]
      · positivity
      · rw [div_lt_one (by norm_num)]
        linarith
    have hrem : convert_to_inches feet inches k + 1 / 1000 -
        12 * (⌊(convert_to_inches feet inches k + 1 / 1000) / 12⌋ : ℚ) =
        (inches : ℚ) + ((k : ℚ) / 16 + 1 / 1000) := by
      rw [hfloor12, ht]
      ring
    have hwhole : ⌊(inches : ℚ) + ((k : ℚ) / 16 + 1 / 1000)⌋ = inches :=
      floor_int_add_fract inches _ hfrac0 hfrac1
    have hclosest : closestSixteenth ((k : ℚ) / 16 + 1 / 1000) = k := by
      have h := closestSixteenth_sixteenth_eps ⟨k, by omega⟩
      simpa using h
    simp only [convert_to_feet_inches_fraction]
    rw [hfloor12] at hrem ⊢
    rw [hrem, hwhole]
    have hfd : (inches : ℚ) + ((k : ℚ) / 16 + 1 / 1000) - (inches : ℚ) =
        (k : ℚ) / 16 + 1 / 1000 := by ring
    rw [hfd, hclosest]
    have hnocarry : ¬ (pyabs ((k : ℚ) / 16 + 1 / 1000 - (k : ℚ) / 16) < 1 / 100 ∧
        (94 : ℚ) / 100 < (k : ℚ) / 16) := by
      rintro ⟨-, h94⟩
      linarith
    rw [if_neg hnocarry]
    have h12 : inches ≠ 12 := by omega
    simp [h12, hfloor12]

/-- An input of exactly 12 inches normalizes to 1 foot, 0 inches. -/
lemma convert_twelve_normalizes :
    convert_to_feet_inches_fraction 12 = (1, 0, 0) := by
  simp only [convert_to_feet_inches_fraction]
  norm_num [closestSixteenth_eps, pyabs]

/-- Evaluation of `convert_to_feet_inches_fraction` at a whole number of
inches `12 * f + i` with `0 ≤ i ≤ 11`. -/
lemma conv_concrete (f i : ℤ) (hf : 0 ≤ f) (hi : 0 ≤ i) (hi11 : i ≤ 11) :
    convert_to_feet_inches_fraction (((12 * f + i : ℤ) : ℚ)) = (f, i, 0) := by
  have h := convert_round_trip_aux f i 0 hf hi hi11 (by norm_num)
  have he : convert_to_inches f i 0 = ((12 * f + i : ℤ) : ℚ) := by
    unfold convert_to_inches fraction_to_decimal
    push_cast
    ring
  rwa [he] at h

/-- C4: for every `feet ≥ 0`, `inches ∈ 0..11` and sixteenth `k ∈ 0..15`,
`convert_to_feet_inches_fraction (convert_to_inches feet inches k)` returns
exactly `(feet, inches, k)`; and an input of exactly 12 inches normalizes to
1 foot, 0 inches, fraction 0. -/
theorem C4_dimension_round_trip :
    (∀ (feet inches : ℤ) (k : ℕ), 0 ≤ feet → 0 ≤ inches → inches ≤ 11 → k ≤ 15 →
      convert_to_feet_inches_fraction (convert_to_inches feet inches k) =
        (feet, inches, k)) ∧
    convert_to_feet_inches_fraction 12 = (1, 0, 0) :=
  ⟨convert_round_trip_aux, convert_twelve_normalizes⟩

/-- Witness for C4: round-trips `7'-5 9/16"`. -/
theorem C4_dimension_round_trip_witness :
    convert_to_feet_inches_fraction (convert_to_inches 7 5 9) = (7, 5, 9) :=
  C4_dimension_round_trip.1 7 5 9 (by norm_num) (by norm_num) (by norm_num) (by norm_num)

/-! ## Data model of the layout engine -/

/-- A dimension together with its sixteenth fraction, in the shape returned
by `convert_to_feet_inches_fraction`: `(feet, inches, sixteenth numerator)`. -/
abbrev DimFrac := ℤ × ℤ × ℕ

/-- The geometric and dimensional fields of the `Panel` dataclass.  The
presentation-only fields (`color`, `border_color`) are omitted. -/
structure Panel where
  id : ℕ
  x : ℚ
  width : ℚ
  actual_width : DimFrac
  height : DimFrac
  floor_mounted : Bool
  height_offset : Option ℚ
deriving Repr, DecidableEq

/-- One value of the `split_panels` dict of `split_selected_panel`. -/
structure SplitInfo where
  original_width : ℚ
  half_width : ℚ
  left_id : ℕ
  right_id : ℕ
  left_x : ℚ
  right_x : ℚ
deriving Repr, DecidableEq

/-- Python dict assignment `d[k] = v` on an insertion-ordered association
list: update in place when the key exists, append otherwise. -/
def dictSet {α : Type} (d : List (ℕ × α)) (k : ℕ) (v : α) : List (ℕ × α) :=
  if d.any (fun e => e.1 == k) then d.map (fun e => if e.1 == k then (k, v) else e)
  else d ++ [(k, v)]

/-- Python dict deletion `del d[k]`. -/
def dictDel {α : Type} (d : List (ℕ × α)) (k : ℕ) : List (ℕ × α) :=
  d.filter (fun e => ¬ e.1 == k)

/-- Python dict lookup `d[k]` (first match; dict keys are unique). -/
def dictFind? {α : Type} (d : List (ℕ × α)) (k : ℕ) : Option α :=
  (d.find? (fun e => e.1 == k)).map Prod.snd

/-- The snapshot of wall/panel parameters read at the top of
`calculate_panels`, with every feet/inches/fraction triple already collapsed
to total inches by `convert_to_inches` (the source performs exactly these
conversions on entry).  `panel_count_raw` and `center_panel_count_raw` are
the raw spinner values before the `max(1, ·)` clamp. -/
structure LayoutState where
  wall_width_inches_total : ℚ
  wall_height_inches_total : ℚ
  panel_width_inches_total : ℚ
  panel_height_inches_total : ℚ
  use_equal_panels : Bool
  panel_count_raw : ℤ
  center_panels : Bool
  center_panel_count_raw : ℤ
  use_start_seam : Bool
  start_seam_position_inches : ℚ
  use_baseboard : Bool
  baseboard_inches_total : ℚ
  floor_mounted : Bool
  height_offset_inches : ℚ
  custom_panel_widths : List (ℕ × ℚ)
  split_panels : List (ℕ × SplitInfo)
  selected_panels : List ℕ
deriving Repr, DecidableEq

/-- Computes `usable_height_inches = wall_height - (baseboard if use_baseboard else 0)`. -/
def usable_height_inches (s : LayoutState) : ℚ :=
  s.wall_height_inches_total - (if s.use_baseboard then s.baseboard_inches_total else 0)

/-- The shared panel height: configured height clamped to the usable height,
then converted back to feet/inches/fraction. -/
def panel_height_df (s : LayoutState) : DimFrac :=
  convert_to_feet_inches_fraction
    (min s.panel_height_inches_total (usable_height_inches s))

/-- The `Panel(...)` constructor call shared by every generator: position and
width already in percent, `w_inches` the absolute width in inches that is
formatted into `actual_width`. -/
def mkPanel (s : LayoutState) (id : ℕ) (x width w_inches : ℚ) : Panel :=
  { id := id, x := x, width := width,
    actual_width := convert_to_feet_inches_fraction w_inches,
    height := panel_height_df s,
    floor_mounted := s.floor_mounted,
    height_offset := if s.floor_mounted then none else some s.height_offset_inches }

/-! ## The five panel generators of `calculate_panels` -/

/-- The custom-override gate of `calculate_panels`: overrides are used when
the dict is non-empty, every id is at most 10, and the total width is
positive and at most `wall_width * 1.05`. -/
def use_custom_panels (s : LayoutState) : Bool :=
  let custom_panel_ids := s.custom_panel_widths.map Prod.fst
  let total_width := (s.custom_panel_widths.map Prod.snd).sum
  (!custom_panel_ids.isEmpty) && (custom_panel_ids.foldl max 0 ≤ 10 : Bool) &&
    (0 < total_width : Bool) &&
    (total_width ≤ s.wall_width_inches_total * (105 / 100) : Bool)

/-- The loop of the custom-widths branch: panels in ascending id order, the
x cursor advancing in percent. -/
def custom_layout_go (s : LayoutState) (scale_factor : ℚ) :
    List ℕ → ℚ → List Panel
  | [], _ => []
  | panel_id :: rest, current_x_percent =>
    let panel_width := ((dictFind? s.custom_panel_widths panel_id).getD 0) * scale_factor
    let panel_width_percent := panel_width / s.wall_width_inches_total * 100
    mkPanel s panel_id current_x_percent panel_width_percent panel_width ::
      custom_layout_go s scale_factor rest (current_x_percent + panel_width_percent)

/-- The custom-widths branch of `calculate_panels`: sorted ids, scaled by
`wall_width / total` when the total exceeds the wall width.  (Python's
`sorted` is embedded as a stable insertion sort.) -/
def custom_layout (s : LayoutState) : List Panel :=
  let panel_ids := List.insertionSort (· ≤ ·) (s.custom_panel_widths.map Prod.fst)
  let total_width := (s.custom_panel_widths.map Prod.snd).sum
  let scale_factor :=
    if s.wall_width_inches_total < total_width then s.wall_width_inches_total / total_width
    else 1
  custom_layout_go s scale_factor panel_ids 0

/-- The common emission loop of the equal-panels generator and the two
start-seam sections: `count` panels of inch width `w`, the inch cursor and
the id counter advancing each step. -/
def panel_row (s : LayoutState) (w : ℚ) :
    ℕ → ℕ → ℚ → List Panel
  | 0, _, _ => []
  | count + 1, id, current_x =>
    mkPanel s id (current_x / s.wall_width_inches_total * 100)
      (w / s.wall_width_inches_total * 100) w ::
      panel_row s w count (id + 1) (current_x + w)

/-- The equal-panels branch: `panel_count` panels of `wall_width / count`. -/
def equal_layout (s : LayoutState) : List Panel :=
  let cnt := (max 1 s.panel_count_raw).toNat
  let base_panel_width := s.wall_width_inches_total / (cnt : ℚ)
  panel_row s base_panel_width cnt 1 0

/-- The center-equal branch: `none` models the
`messagebox.showerror(..., "Center panels exceed wall width!"); return []`
failure; otherwise an optional left side panel, `cnt` fixed 48-inch center
panels, and an optional right side panel, with ids `len(panels) + 1`. -/
def center_layout (s : LayoutState) : Option (List Panel) :=
  let W := s.wall_width_inches_total
  let cnt := (max 1 s.center_panel_count_raw).toNat
  let center_panel_width : ℚ := 48
  let total_center_width := (cnt : ℚ) * center_panel_width
  if W < total_center_width then none
  else
    let side_panel_width := (W - total_center_width) / 2
    let base := if 0 < side_panel_width then 1 else 0
    let left :=
      if 0 < side_panel_width then
        [mkPanel s 1 0 (side_panel_width / W * 100) side_panel_width]
      else []
    let centers := (List.range cnt).map (fun i =>
      mkPanel s (base + i + 1)
        ((side_panel_width + (i : ℚ) * center_panel_width) / W * 100)
        (center_panel_width / W * 100) center_panel_width)
    let right :=
      if 0 < side_panel_width then
        [mkPanel s (base + cnt + 1) ((W - side_panel_width) / W * 100)
          (side_panel_width / W * 100) side_panel_width]
      else []
    some (left ++ centers ++ right)

/-- Panel count and per-panel width of one start-seam section: zero full
panels → a single panel spanning the section; a positive remainder →
distributed equally over `full + 1` panels; an exact fit → `full` panels of
the configured width.  (`int(a // b)` and `a % b` of the source are floor
division and its remainder.) -/
def seam_section (section_width panel_width_inches : ℚ) : ℕ × ℚ :=
  let full := (⌊section_width / panel_width_inches⌋).toNat
  let remainder :=
    section_width - panel_width_inches * (⌊section_width / panel_width_inches⌋ : ℚ)
  if full = 0 then (1, section_width)
  else if 0 < remainder then (full + 1, section_width / ((full : ℚ) + 1))
  else (full, panel_width_inches)

/-- Embeds `calculate_equal_panels_fallback`: the fixed 2-panel 50/50 split used
when the seam position is out of bounds; `x` and `width` are the literal
percentages `i * 50` and `50` of the source. -/
def calculate_equal_panels_fallback (s : LayoutState) : List Panel :=
  let panel_width := s.wall_width_inches_total / 2
  (List.range 2).map (fun i => mkPanel s (i + 1) ((i : ℚ) * 50) 50 panel_width)

/-- Embeds `calculate_start_seam_panels`: falls back to the 50/50 split when the
seam position is outside `(0, wall_width)`; otherwise lays out the left and
right sections.  The id counter and inch cursor handed to the right section
are the loop accumulators after the left section: `left.1` panels were
emitted, each advancing the cursor by `left.2` inches. -/
def calculate_start_seam_panels (s : LayoutState) : List Panel :=
  let W := s.wall_width_inches_total
  let start_seam_position_inches := s.start_seam_position_inches
  if start_seam_position_inches ≤ 0 ∨ W ≤ start_seam_position_inches then
    calculate_equal_panels_fallback s
  else
    let left_width := start_seam_position_inches
    let right_width := W - start_seam_position_inches
    let panel_width_inches :=
      if s.panel_width_inches_total ≤ 0 then 48 else s.panel_width_inches_total
    let left := seam_section left_width panel_width_inches
    let right := seam_section right_width panel_width_inches
    (if 0 < left_width then panel_row s left.2 left.1 1 0 else []) ++
      (if 0 < right_width then
        panel_row s right.2 right.1
          (if 0 < left_width then 1 + left.1 else 1)
          (if 0 < left_width then (left.1 : ℚ) * left.2 else 0)
      else [])

/-- The `while current_x < wall_width` loop of the fixed-width branch; the
fuel argument only bounds the iteration count (the caller passes
`⌈wall_width / panel_width⌉`, which the positive step `panel_width` makes
exact), so the recursion is total. -/
def fixed_layout_go (s : LayoutState) (pw : ℚ) :
    ℕ → ℕ → ℚ → List Panel
  | 0, _, _ => []
  | fuel + 1, id, current_x =>
    if current_x < s.wall_width_inches_total then
      let current_panel_width := min pw (s.wall_width_inches_total - current_x)
      mkPanel s id (current_x / s.wall_width_inches_total * 100)
        (current_panel_width / s.wall_width_inches_total * 100) current_panel_width ::
        fixed_layout_go s pw fuel (id + 1) (current_x + pw)
    else []

/-- The fixed-width branch: `none` models the `return []` on a non-positive
configured panel width. -/
def fixed_layout (s : LayoutState) : Option (List Panel) :=
  let pw := s.panel_width_inches_total
  if pw ≤ 0 then none
  else some (fixed_layout_go s pw (⌈s.wall_width_inches_total / pw⌉).toNat 1 0)

/-! ## Strategy selection, split post-pass and `calculate_panels` -/

/-- How a `calculate_panels` run can end early.  `invalidInput` are the
silent `return []` paths; `centerPanelsExceedWall` is the only path that
additionally raises a user-visible `messagebox.showerror`. -/
inductive LayoutError
  | invalidInput
  | centerPanelsExceedWall
deriving Repr, DecidableEq

/-- The generator phase of `calculate_panels`: the early validity returns,
then the first matching branch of custom-overrides / center-equal /
start-seam / equal-count / fixed-width, in the source's order. -/
def generated_panels (s : LayoutState) : Except LayoutError (List Panel) :=
  if s.wall_width_inches_total ≤ 0 ∨ s.wall_height_inches_total ≤ 0 then
    .error .invalidInput
  else if usable_height_inches s ≤ 0 then .error .invalidInput
  else if use_custom_panels s then .ok (custom_layout s)
  else if s.center_panels then
    match center_layout s with
    | none => .error .centerPanelsExceedWall
    | some ps => .ok ps
  else if s.use_start_seam then .ok (calculate_start_seam_panels s)
  else if s.use_equal_panels then .ok (equal_layout s)
  else
    match fixed_layout s with
    | none => .error .invalidInput
    | some ps => .ok ps

/-- The `for orig_id, info in split_panels.items(): if panel.id ==
info['left_id']` scan (first match, insertion order). -/
def find_split_info (s : LayoutState) (pid : ℕ) : Option SplitInfo :=
  (s.split_panels.find? (fun e => e.2.left_id == pid)).map Prod.snd

/-- The split post-pass loop: walk the panels sorted by `x`, skip already
processed ids, pass untouched panels through, and replace the left panel of
a split with two half-width panels — the left keeps the panel's existing
`x`, the right sits at `x + half_width_percent`. -/
def process_split_go (s : LayoutState) : List Panel → List ℕ → List Panel
  | [], _ => []
  | panel :: rest, processed =>
    if panel.id ∈ processed then process_split_go s rest processed
    else
      match find_split_info s panel.id with
      | none => panel :: process_split_go s rest (panel.id :: processed)
      | some info =>
        let half_width_percent := info.half_width / s.wall_width_inches_total * 100
        { id := panel.id, x := panel.x, width := half_width_percent,
          actual_width := convert_to_feet_inches_fraction info.half_width,
          height := panel.height, floor_mounted := s.floor_mounted,
          height_offset :=
            if s.floor_mounted then none else some s.height_offset_inches } ::
        { id := info.right_id, x := panel.x + half_width_percent,
          width := half_width_percent,
          actual_width := convert_to_feet_inches_fraction info.half_width,
          height := panel.height, floor_mounted := s.floor_mounted,
          height_offset :=
            if s.floor_mounted then none else some s.height_offset_inches } ::
        process_split_go s rest (info.right_id :: panel.id :: processed)

/-- The split post-pass of `calculate_panels`: a no-op when no splits are
recorded, otherwise the scan over the panels sorted (stably) by `x`. -/
def process_split_panels (s : LayoutState) (panels : List Panel) : List Panel :=
  if s.split_panels.isEmpty then panels
  else process_split_go s (List.insertionSort (fun a b => a.x ≤ b.x) panels) []

/-- Embeds `calculate_panels`: every early-return path yields `[]`; a generated
layout flows through the split post-pass. -/
def calculate_panels (s : LayoutState) : List Panel :=
  match generated_panels s with
  | .error _ => []
  | .ok panels => process_split_panels s panels

/-! ## The split and width-override operations -/

/-- Embeds `split_selected_panel`: requires exactly one selected panel; recomputes
the panels, locates the selected one, halves its absolute width, allocates
`max(ids) + 1` as the right id, deletes any width override for the selected
id, deletes any split whose left or right id is the selected id, then
records the split — and stores the half width as a custom width override
for BOTH result ids.  (`wall_dimensions` was just refreshed by
`calculate_panels` from the same inputs, so the wall width it re-reads is
`wall_width_inches_total`.)  `none` models the validation-error
`messagebox.showerror` returns. -/
def split_selected_panel (s : LayoutState) : Option LayoutState :=
  match s.selected_panels with
  | [panel_id] =>
    let panels := calculate_panels s
    match panels.find? (fun p => p.id == panel_id) with
    | none => none
    | some selected_panel =>
      let wall_width_inches := s.wall_width_inches_total
      let panel_width_inches := selected_panel.width / 100 * wall_width_inches
      let half_width_inches := panel_width_inches / 2
      let highest_id := (panels.map Panel.id).foldl max 0
      let new_right_id := highest_id + 1
      let current_x_inches := selected_panel.x / 100 * wall_width_inches
      let info : SplitInfo :=
        { original_width := panel_width_inches, half_width := half_width_inches,
          left_id := panel_id, right_id := new_right_id,
          left_x := current_x_inches / wall_width_inches * 100,
          right_x := (current_x_inches + half_width_inches) / wall_width_inches * 100 }
      some { s with
        custom_panel_widths :=
          dictSet
            (dictSet (dictDel s.custom_panel_widths panel_id) panel_id half_width_inches)
            new_right_id half_width_inches,
        split_panels :=
          dictSet
            (s.split_panels.filter
              (fun e => !(e.2.left_id == panel_id || e.2.right_id == panel_id)))
            panel_id info,
        center_panels := false,
        selected_panels := [panel_id, new_right_id] }
  | _ => none

/-- Embeds `apply_panel_width_adjustment`: rejects a non-positive width, rejects a
panel id outside `1..10`, and otherwise stores the width override and turns
off the center-equal and equal-count flags.  The split records are not
touched.  `none` models the validation-error returns. -/
def apply_panel_width_adjustment (s : LayoutState) (panel_id feet inches : ℤ)
    (k : ℕ) : Option LayoutState :=
  let total_inches := convert_to_inches feet inches k
  if total_inches ≤ 0 then none
  else if panel_id ≤ 0 ∨ 10 < panel_id then none
  else some { s with
    custom_panel_widths := dictSet s.custom_panel_widths panel_id.toNat total_inches,
    center_panels := false,
    use_equal_panels := false }

/-! ## The object anchoring solver (`add_wall_object`) -/

inductive VRef | topEdge | center | bottomEdge
deriving Repr, DecidableEq

inductive VOrigin | wallTop | panelTop
deriving Repr, DecidableEq

inductive HRef | leftEdge | center | rightEdge
deriving Repr, DecidableEq

inductive Alignment | center | leftEdge | rightEdge
deriving Repr, DecidableEq

/-- The object parameters read by `add_wall_object`, with feet/inches/
fraction inputs already collapsed to inch totals. -/
structure ObjectParams where
  object_width_inches : ℚ
  object_height_inches : ℚ
  v_position_inches : ℚ
  v_reference : VRef
  v_origin : VOrigin
  use_exact_position : Bool
  h_position_inches : ℚ
  h_reference : HRef
  alignment : Alignment
deriving Repr, DecidableEq

/-- The position solver of `add_wall_object`, returning the created object's
center `(x_position, y_position)` in percent, or `none` when no object is
created.  The guard `if not self.selected_panels: showerror; return` is the
first statement and applies to BOTH horizontal modes.  In alignment mode the
source takes `min`/`max` over the panels whose ids are selected; when that
list is empty Python's `min` raises, so no object is created — also modelled
as `none`. -/
def add_wall_object (s : LayoutState) (o : ObjectParams) : Option (ℚ × ℚ) :=
  if s.selected_panels.isEmpty then none
  else
    let wall_width_inches := s.wall_width_inches_total
    let wall_height_inches := s.wall_height_inches_total
    let panel_height_inches := s.panel_height_inches_total
    let baseboard_height_inches :=
      if s.use_baseboard then s.baseboard_inches_total else 0
    let usable_height := wall_height_inches - baseboard_height_inches
    let v1 :=
      match o.v_reference with
      | .topEdge => o.v_position_inches + o.object_height_inches / 2
      | .bottomEdge => o.v_position_inches - o.object_height_inches / 2
      | .center => o.v_position_inches
    let v2 :=
      match o.v_origin with
      | .panelTop =>
        v1 + (wall_height_inches - panel_height_inches -
          (if s.use_baseboard then baseboard_height_inches else 0))
      | .wallTop => v1
    let y_position := max 0 (min 100 (v2 / usable_height * 100))
    if o.use_exact_position then
      let h1 :=
        match o.h_reference with
        | .center => o.h_position_inches
        | .rightEdge => o.h_position_inches - o.object_width_inches / 2
        | .leftEdge => o.h_position_inches + o.object_width_inches / 2
      let x_position := min (max (h1 / wall_width_inches * 100) 0) 100
      some (x_position, y_position)
    else
      let panels := calculate_panels s
      let selected := panels.filter (fun p => s.selected_panels.contains p.id)
      match selected with
      | [] => none
      | p :: ps =>
        let min_x := (ps.map Panel.x).foldl min p.x
        let max_x := (ps.map (fun q => q.x + q.width)).foldl max (p.x + p.width)
        let object_half_width_pct := (o.object_width_inches / wall_width_inches * 100) / 2
        let x_position :=
          match o.alignment with
          | .center => (min_x + max_x) / 2
          | .leftEdge => min_x + object_half_width_pct
          | .rightEdge => max_x - object_half_width_pct
        some (x_position, y_position)

/-! ## The recomputation coordinator (`calculate`) -/

/-- The coordinator flags of the `calculate` method, plus two ghost
counters: `started` counts entries into the computation body, `scheduled`
counts `after_idle(self.calculate)` calls issued by the `finally` block. -/
structure CoordState where
  calculation_in_progress : Bool
  pending_calculation : Bool
  switching_walls : Bool
  started : ℕ
  scheduled : ℕ
deriving Repr, DecidableEq

/-- One trigger of `calculate`: re-entrant calls only set the pending flag;
calls during wall switching are dropped; otherwise the body starts. -/
def calculate_trigger (c : CoordState) : CoordState :=
  if c.calculation_in_progress then { c with pending_calculation := true }
  else if c.switching_walls then c
  else { c with calculation_in_progress := true, started := c.started + 1 }

/-- The `finally` block at the end of a computation: always clear the
in-progress flag; if a pending request accumulated, clear it and schedule
exactly one `after_idle(self.calculate)`. -/
def calculate_finish (c : CoordState) : CoordState :=
  let c1 : CoordState := { c with calculation_in_progress := false }
  if c1.pending_calculation then
    { c1 with pending_calculation := false, scheduled := c1.scheduled + 1 }
  else c1

/-! ## Theorems: the recomputation coordinator (C8) -/

/-- While a computation is in progress, any number of triggers only sets the
pending flag. -/
lemma calculate_trigger_in_progress (c : CoordState) (n : ℕ)
    (h : c.calculation_in_progress = true) :
    calculate_trigger^[n] c =
      if n = 0 then c else { c with pending_calculation := true } := by
  induction n with
  | zero => simp
  | succ n ih =>
    rw [Function.iterate_succ_apply', ih, if_neg (Nat.succ_ne_zero n)]
    by_cases hn : n = 0
    · rw [if_pos hn]
      unfold calculate_trigger
      rw [if_pos h]
    · rw [if_neg hn]
      unfold calculate_trigger
      rw [if_pos (show ({ c with pending_calculation := true } :
        CoordState).calculation_in_progress = true from h)]

/-- C8: the coordinator is single-flight with one pending retry: while a
computation is in progress, every further trigger leaves the number of
started computations unchanged and only sets the pending flag (any positive
number of triggers sets it); and when the computation finishes, exactly one
additional computation is scheduled iff the pending flag is set — no matter
how many triggers arrived during the run. -/
theorem C8_single_flight_coordinator (c : CoordState) (n : ℕ)
    (h : c.calculation_in_progress = true) :
    (calculate_trigger^[n] c).started = c.started ∧
    (calculate_trigger^[n] c).calculation_in_progress = true ∧
    (0 < n → (calculate_trigger^[n] c).pending_calculation = true) ∧
    (calculate_finish (calculate_trigger^[n] c)).scheduled =
      c.scheduled +
        (if (calculate_trigger^[n] c).pending_calculation then 1 else 0) := by
  rw [calculate_trigger_in_progress c n h]
  by_cases hn : n = 0
  · rw [if_pos hn]
    refine ⟨rfl, h, fun h0 => absurd h0 (by omega), ?_⟩
    unfold calculate_finish
    by_cases hp : c.pending_calculation = true
    · rw [hp]
      simp
    · have hp' : c.pending_calculation = false := by
        revert hp
        cases c.pending_calculation <;> simp
      rw [hp']
      simp
  · rw [if_neg hn]
    refine ⟨rfl, h, fun _ => rfl, ?_⟩
    unfold calculate_finish
    simp

/-- Witness for C8: three triggers during a run coalesce into one scheduled
recompute. -/
theorem C8_single_flight_coordinator_witness :
    (calculate_trigger^[3] ⟨true, false, false, 1, 0⟩).started =
      (⟨true, false, false, 1, 0⟩ : CoordState).started ∧
    (calculate_trigger^[3] ⟨true, false, false, 1, 0⟩).calculation_in_progress = true ∧
    (0 < 3 → (calculate_trigger^[3] ⟨true, false, false, 1, 0⟩).pending_calculation = true) ∧
    (calculate_finish (calculate_trigger^[3] ⟨true, false, false, 1, 0⟩)).scheduled =
      (⟨true, false, false, 1, 0⟩ : CoordState).scheduled +
        (if (calculate_trigger^[3] ⟨true, false, false, 1, 0⟩).pending_calculation
         then 1 else 0) :=
  C8_single_flight_coordinator ⟨true, false, false, 1, 0⟩ 3 rfl

/-! ## Theorems: degenerate inputs (C10) -/

/-- C10: whenever the wall width, the wall height or the usable height is
non-positive, or the fixed-width branch is selected with a non-positive
configured panel width, `calculate_panels` returns the empty list through one
of the silent `return []` paths — never through the user-visible
center-panels error. -/
theorem C10_degenerate_inputs_empty (s : LayoutState)
    (h : s.wall_width_inches_total ≤ 0 ∨ s.wall_height_inches_total ≤ 0 ∨
      usable_height_inches s ≤ 0 ∨
      (use_custom_panels s = false ∧ s.center_panels = false ∧
        s.use_start_seam = false ∧ s.use_equal_panels = false ∧
        s.panel_width_inches_total ≤ 0)) :
    calculate_panels s = [] ∧ generated_panels s = .error .invalidInput := by
  have hgen : generated_panels s = .error .invalidInput := by
    unfold generated_panels
    by_cases h0 : s.wall_width_inches_total ≤ 0 ∨ s.wall_height_inches_total ≤ 0
    · rw [if_pos h0]
    · rw [if_neg h0]
      by_cases h1 : usable_height_inches s ≤ 0
      · rw [if_pos h1]
      · rw [if_neg h1]
        rcases h with h | h | h | ⟨hc, hcen, hseam, heq, hpw⟩
        · exact absurd (Or.inl h) h0
        · exact absurd (Or.inr h) h0
        · exact absurd h h1
        · rw [hc]
          simp only [Bool.false_eq_true, if_false, hcen, hseam, heq]
          unfold fixed_layout
          rw [if_pos hpw]
  exact ⟨by unfold calculate_panels; rw [hgen], hgen⟩

/-- Witness for C10: a zero-width wall yields the empty layout. -/
theorem C10_degenerate_inputs_empty_witness :
    calculate_panels
        ⟨0, 96, 48, 96, false, 2, false, 4, false, 0, false, 4, true, 0, [], [], []⟩ = [] ∧
    generated_panels
        ⟨0, 96, 48, 96, false, 2, false, 4, false, 0, false, 4, true, 0, [], [], []⟩ =
      .error .invalidInput :=
  C10_degenerate_inputs_empty _ (Or.inl (by norm_num))

/-! ## Theorems: the custom-override id limit (C9) -/

lemma le_foldl_max (l : List ℕ) (a : ℕ) : a ≤ l.foldl max a := by
  induction l generalizing a with
  | nil => exact le_rfl
  | cons b t ih => exact le_trans (le_max_left a b) (ih (max a b))

lemma mem_le_foldl_max (l : List ℕ) (x : ℕ) (hx : x ∈ l) (a : ℕ) :
    x ≤ l.foldl max a := by
  induction l generalizing a with
  | nil => cases hx
  | cons b t ih =>
    rcases List.mem_cons.mp hx with rfl | hx
    · exact le_trans (le_max_right a x) (le_foldl_max t (max a x))
    · exact ih hx (max a b)

/-- The custom-override gate requires every override id to be at most 10. -/
lemma use_custom_panels_id_le (s : LayoutState)
    (h : use_custom_panels s = true) :
    ∀ pid ∈ s.custom_panel_widths.map Prod.fst, pid ≤ 10 := by
  intro pid hpid
  unfold use_custom_panels at h
  simp only [Bool.and_eq_true, decide_eq_true_eq] at h
  exact le_trans (mem_le_foldl_max _ pid hpid 0) h.1.1.2

/-- C9: the custom-override layout is applied only when every overridden
panel id is at most 10; if any override id exceeds 10 the custom gate is
off, so (for valid wall dimensions) the generator phase is exactly the
mode-flag dispatch — the override map is ignored; and
`apply_panel_width_adjustment` rejects ids outside `1..10` with a
validation error. -/
theorem C9_override_id_limit :
    (∀ s : LayoutState, use_custom_panels s = true →
      ∀ pid ∈ s.custom_panel_widths.map Prod.fst, pid ≤ 10) ∧
    (∀ s : LayoutState,
      (∃ pid ∈ s.custom_panel_widths.map Prod.fst, 10 < pid) →
      use_custom_panels s = false ∧
      (¬ (s.wall_width_inches_total ≤ 0 ∨ s.wall_height_inches_total ≤ 0) →
        ¬ (usable_height_inches s ≤ 0) →
        generated_panels s =
          if s.center_panels then
            match center_layout s with
            | none => .error .centerPanelsExceedWall
            | some ps => .ok ps
          else if s.use_start_seam then .ok (calculate_start_seam_panels s)
          else if s.use_equal_panels then .ok (equal_layout s)
          else
            match fixed_layout s with
            | none => .error .invalidInput
            | some ps => .ok ps)) ∧
    (∀ (s : LayoutState) (panel_id feet inches : ℤ) (k : ℕ),
      panel_id ≤ 0 ∨ 10 < panel_id →
      apply_panel_width_adjustment s panel_id feet inches k = none) := by
  refine ⟨use_custom_panels_id_le, fun s h => ?_, fun s panel_id feet inches k h => ?_⟩
  · obtain ⟨pid, hmem, hgt⟩ := h
    have hfalse : use_custom_panels s = false := by
      by_contra hne
      have htrue : use_custom_panels s = true := by
        revert hne
        cases use_custom_panels s <;> simp
      exact absurd (use_custom_panels_id_le s htrue pid hmem) (by omega)
    refine ⟨hfalse, fun h0 h1 => ?_⟩
    unfold generated_panels
    rw [if_neg h0, if_neg h1, hfalse]
    rfl
  · unfold apply_panel_width_adjustment
    by_cases h0 : convert_to_inches feet inches k ≤ 0
    · rw [if_pos h0]
    · rw [if_neg h0, if_pos h]

/-- Witness for C9: an override for panel id 11 deactivates the custom gate
— the generator phase is the (fixed-width) mode dispatch — and applying a
width to panel id 11 is rejected. -/
theorem C9_override_id_limit_witness :
    use_custom_panels
        ⟨96, 96, 48, 96, false, 2, false, 4, false, 0, false, 4, true, 0,
          [(11, 40)], [], []⟩ = false ∧
    generated_panels
        ⟨96, 96, 48, 96, false, 2, false, 4, false, 0, false, 4, true, 0,
          [(11, 40)], [], []⟩ =
      (match fixed_layout
          ⟨96, 96, 48, 96, false, 2, false, 4, false, 0, false, 4, true, 0,
            [(11, 40)], [], []⟩ with
        | none => Except.error LayoutError.invalidInput
        | some ps => Except.ok ps) ∧
    apply_panel_width_adjustment
        ⟨96, 96, 48, 96, false, 2, false, 4, false, 0, false, 4, true, 0, [], [], []⟩
        11 3 4 0 = none := by
  refine ⟨(C9_override_id_limit.2.1 _ ⟨11, by simp, by norm_num⟩).1,
    (C9_override_id_limit.2.1 _ ⟨11, by simp, by norm_num⟩).2 (by norm_num)
      (by norm_num [usable_height_inches]),
    C9_override_id_limit.2.2 _ 11 3 4 0 (Or.inr (by norm_num))⟩

/-! ## Theorems: the object anchoring solver (C7) -/

/-- Counterexample to C7 as stated: in exact-position mode with the empty
panel selection, `add_wall_object` fails (creates no object) instead of
succeeding — the no-selection guard is the first statement of the method and
applies to both modes. -/
theorem C7_counterexample :
    add_wall_object
        ⟨96, 96, 48, 96, false, 2, false, 4, false, 0, false, 4, true, 0, [], [], []⟩
        ⟨20, 10, 30, .center, .wallTop, true, 40, .center, .center⟩ = none := by
  rfl

/-- C7 (amended): the solver of `add_wall_object` rejects the empty panel selection in
BOTH modes (the guard precedes the mode dispatch); in exact-position mode
with a non-empty selection, the computed object position is independent of
which panels are selected. -/
theorem C7_amended_selection_guard :
    (∀ (s : LayoutState) (o : ObjectParams), s.selected_panels = [] →
      add_wall_object s o = none) ∧
    (∀ (s : LayoutState) (o : ObjectParams) (ids1 ids2 : List ℕ),
      o.use_exact_position = true → ids1 ≠ [] → ids2 ≠ [] →
      add_wall_object { s with selected_panels := ids1 } o =
        add_wall_object { s with selected_panels := ids2 } o) := by
  constructor
  · intro s o h
    unfold add_wall_object
    rw [h]
    rfl
  · intro s o ids1 ids2 hexact h1 h2
    unfold add_wall_object
    have e1 : ({ s with selected_panels := ids1 } : LayoutState).selected_panels.isEmpty
        = false := by
      cases ids1 with
      | nil => exact absurd rfl h1
      | cons a t => rfl
    have e2 : ({ s with selected_panels := ids2 } : LayoutState).selected_panels.isEmpty
        = false := by
      cases ids2 with
      | nil => exact absurd rfl h2
      | cons a t => rfl
    rw [e1, e2]
    simp only [Bool.false_eq_true, if_false, hexact, if_true]

/-- Witness for C7: two different non-empty selections give the same
exact-mode object position. -/
theorem C7_amended_selection_guard_witness :
    add_wall_object
        ⟨96, 96, 48, 96, false, 2, false, 4, false, 0, false, 4, true, 0, [], [], [1]⟩
        ⟨20, 10, 30, .center, .wallTop, true, 40, .center, .center⟩ =
      add_wall_object
        ⟨96, 96, 48, 96, false, 2, false, 4, false, 0, false, 4, true, 0, [], [], [1, 2]⟩
        ⟨20, 10, 30, .center, .wallTop, true, 40, .center, .center⟩ :=
  C7_amended_selection_guard.2
    ⟨96, 96, 48, 96, false, 2, false, 4, false, 0, false, 4, true, 0, [], [], []⟩
    ⟨20, 10, 30, .center, .wallTop, true, 40, .center, .center⟩
    [1] [1, 2] rfl (by simp) (by simp)

/-! ## Theorems: strategy priority (C3) -/

lemma panel_row_length (s : LayoutState) (w : ℚ) :
    ∀ (n id : ℕ) (cx : ℚ), (panel_row s w n id cx).length = n := by
  intro n
  induction n with
  | zero => intro id cx; rfl
  | succ m ih => intro id cx; simp [panel_row, ih]

lemma range2 : List.range 2 = [0, 1] := rfl

/-- Concrete evaluations of `convert_to_feet_inches_fraction` used by the
scenario computations. -/
lemma conv96 : convert_to_feet_inches_fraction 96 = (8, 0, 0) := by
  have h := conv_concrete 8 0 (by norm_num) (by norm_num) (by norm_num)
  norm_num at h
  exact h

lemma conv48 : convert_to_feet_inches_fraction 48 = (4, 0, 0) := by
  have h := conv_concrete 4 0 (by norm_num) (by norm_num) (by norm_num)
  norm_num at h
  exact h

lemma conv24 : convert_to_feet_inches_fraction 24 = (2, 0, 0) := by
  have h := conv_concrete 2 0 (by norm_num) (by norm_num) (by norm_num)
  norm_num at h
  exact h

lemma conv40 : convert_to_feet_inches_fraction 40 = (3, 4, 0) := by
  have h := conv_concrete 3 4 (by norm_num) (by norm_num) (by norm_num)
  norm_num at h
  exact h

lemma conv28 : convert_to_feet_inches_fraction 28 = (2, 4, 0) := by
  have h := conv_concrete 2 4 (by norm_num) (by norm_num) (by norm_num)
  norm_num at h
  exact h

/-- A state with BOTH the center-equal flag and the start-seam flag set:
96-inch wall, two 48-inch center panels (an exact fit), seam at 40 inches,
fixed panel width 48 inches. -/
def bothFlagsState : LayoutState :=
  ⟨96, 96, 48, 96, false, 2, true, 2, true, 40, false, 4, true, 0, [], [], []⟩

/-- Counterexample to C3 as stated: with both flags set, `calculate_panels`
returns the Centered-Equal layout (two panels), not the Start-Seam layout
(three panels) — the center-equal branch is tested BEFORE the start-seam
branch. -/
theorem C3_counterexample :
    (calculate_panels bothFlagsState).length = 2 ∧
    (calculate_start_seam_panels bothFlagsState).length = 3 := by
  constructor
  · unfold calculate_panels generated_panels bothFlagsState
    norm_num [use_custom_panels, usable_height_inches, center_layout,
      process_split_panels, range2, show Int.toNat 2 = 2 from rfl]
  · unfold calculate_start_seam_panels bothFlagsState seam_section
    norm_num [panel_row_length]

/-- C3 (amended): the priority is the reverse of the claim: whenever no
custom-override layout is active and the center-equal flag is set,
`calculate_panels` selects the Centered-Equal generator — regardless of the
start-seam flag, which is only consulted when the center flag is off. -/
theorem C3_amended_center_over_seam (s : LayoutState)
    (hc : use_custom_panels s = false) (hcen : s.center_panels = true)
    (h0 : ¬ (s.wall_width_inches_total ≤ 0 ∨ s.wall_height_inches_total ≤ 0))
    (h1 : ¬ (usable_height_inches s ≤ 0)) :
    calculate_panels s =
      match center_layout s with
      | none => []
      | some ps => process_split_panels s ps := by
  unfold calculate_panels generated_panels
  rw [if_neg h0, if_neg h1, hc, hcen]
  cases center_layout s <;> rfl

/-- Witness for C3 (amended), at the both-flags state. -/
theorem C3_amended_center_over_seam_witness :
    calculate_panels bothFlagsState =
      match center_layout bothFlagsState with
      | none => []
      | some ps => process_split_panels bothFlagsState ps :=
  C3_amended_center_over_seam bothFlagsState rfl rfl (by norm_num [bothFlagsState])
    (by norm_num [bothFlagsState, usable_height_inches])

/-! ## Theorems: coverage and no-gap (C1) -/

/-- The no-gap/prefix-sum predicate of the spec: the first panel's `x` is
`start`, and each subsequent panel's `x` is the preceding panel's
`x + width`. -/
def chain : ℚ → List Panel → Prop
  | _, [] => True
  | start, p :: rest => p.x = start ∧ chain (start + p.width) rest

/-- The tiling property of C1: positions are prefix sums starting at 0 (in
particular the first panel's `x` is 0) and the widths sum to exactly 100
percent of the wall. -/
def tiles (ps : List Panel) : Prop :=
  chain 0 ps ∧ ((ps.map Panel.width).sum = 100)

@[simp] lemma mkPanel_x (s : LayoutState) (id : ℕ) (x w wi : ℚ) :
    (mkPanel s id x w wi).x = x := rfl

@[simp] lemma mkPanel_width (s : LayoutState) (id : ℕ) (x w wi : ℚ) :
    (mkPanel s id x w wi).width = w := rfl

@[simp] lemma mkPanel_id (s : LayoutState) (id : ℕ) (x w wi : ℚ) :
    (mkPanel s id x w wi).id = id := rfl

lemma chain_append {ps qs : List Panel} :
    ∀ {a : ℚ}, chain a ps → chain (a + (ps.map Panel.width).sum) qs →
      chain a (ps ++ qs) := by
  induction ps with
  | nil => intro a _ h2; simpa using h2
  | cons p t ih =>
    intro a h1 h2
    obtain ⟨hx, hc⟩ := h1
    refine ⟨hx, ih hc ?_⟩
    rw [List.map_cons, List.sum_cons, ← add_assoc] at h2
    exact h2

lemma chain_panel_row (s : LayoutState) (w : ℚ) :
    ∀ (n id : ℕ) (cx : ℚ),
      chain (cx / s.wall_width_inches_total * 100) (panel_row s w n id cx) := by
  intro n
  induction n with
  | zero => intro id cx; trivial
  | succ m ih =>
    intro id cx
    refine ⟨rfl, ?_⟩
    have heq : (cx + w) / s.wall_width_inches_total * 100 =
        cx / s.wall_width_inches_total * 100 + w / s.wall_width_inches_total * 100 := by
      ring
    have h := ih (id + 1) (cx + w)
    rwa [heq] at h

lemma sum_panel_row (s : LayoutState) (w : ℚ) :
    ∀ (n id : ℕ) (cx : ℚ),
      ((panel_row s w n id cx).map Panel.width).sum =
        (n : ℚ) * (w / s.wall_width_inches_total * 100) := by
  intro n
  induction n with
  | zero => intro id cx; simp [panel_row]
  | succ m ih =>
    intro id cx
    simp only [panel_row, List.map_cons, List.sum_cons, mkPanel_width, ih]
    push_cast
    ring

lemma chain_map_range :
    ∀ (n : ℕ) (f : ℕ → Panel) (a d : ℚ),
      (∀ i, i < n → (f i).x = a + (i : ℚ) * d) →
      (∀ i, i < n → (f i).width = d) →
      chain a ((List.range n).map f) := by
  intro n
  induction n with
  | zero => intro f a d _ _; trivial
  | succ m ih =>
    intro f a d hx hw
    rw [List.range_succ_eq_map, List.map_cons, List.map_map]
    refine ⟨by simpa using hx 0 (Nat.succ_pos m), ?_⟩
    rw [hw 0 (Nat.succ_pos m)]
    exact ih (f ∘ Nat.succ) (a + d) d
      (fun i hi => by
        have := hx (i + 1) (Nat.succ_lt_succ hi)
        simp only [Function.comp_apply] at this ⊢
        rw [this]
        push_cast
        ring)
      (fun i hi => hw (i + 1) (Nat.succ_lt_succ hi))

lemma sum_map_range :
    ∀ (n : ℕ) (f : ℕ → Panel) (d : ℚ),
      (∀ i, i < n → (f i).width = d) →
      (((List.range n).map f).map Panel.width).sum = (n : ℚ) * d := by
  intro n
  induction n with
  | zero => intro f d _; simp
  | succ m ih =>
    intro f d hw
    rw [List.range_succ, List.map_append, List.map_append, List.sum_append,
      ih f d (fun i hi => hw i (Nat.lt_succ_of_lt hi))]
    simp only [List.map_cons, List.map_nil, List.sum_cons, List.sum_nil,
      hw m (Nat.lt_succ_self m)]
    push_cast
    ring

lemma fixed_go_stop (s : LayoutState) (pw : ℚ) (fuel id : ℕ) (cx : ℚ)
    (h : ¬ cx < s.wall_width_inches_total) :
    fixed_layout_go s pw fuel id cx = [] := by
  cases fuel with
  | zero => rfl
  | succ m => unfold fixed_layout_go; rw [if_neg h]

lemma chain_fixed_go (s : LayoutState) (pw : ℚ) :
    ∀ (fuel id : ℕ) (cx : ℚ),
      chain (cx / s.wall_width_inches_total * 100) (fixed_layout_go s pw fuel id cx) := by
  intro fuel
  induction fuel with
  | zero => intro id cx; trivial
  | succ m ih =>
    intro id cx
    unfold fixed_layout_go
    by_cases hcx : cx < s.wall_width_inches_total
    · rw [if_pos hcx]
      refine ⟨rfl, ?_⟩
      by_cases h2 : cx + pw < s.wall_width_inches_total
      · have hmin : min pw (s.wall_width_inches_total - cx) = pw :=
          min_eq_left (by linarith)
        rw [mkPanel_width, hmin]
        have heq : (cx + pw) / s.wall_width_inches_total * 100 =
            cx / s.wall_width_inches_total * 100 +
              pw / s.wall_width_inches_total * 100 := by
          ring
        have h := ih (id + 1) (cx + pw)
        rwa [heq] at h
      · rw [fixed_go_stop s pw m (id + 1) (cx + pw) h2]
        trivial
    · rw [if_neg hcx]
      trivial

lemma sum_fixed_go (s : LayoutState) (pw : ℚ) (hpw : 0 < pw) :
    ∀ (fuel id : ℕ) (cx : ℚ), cx < s.wall_width_inches_total →
      s.wall_width_inches_total - cx ≤ (fuel : ℚ) * pw →
      ((fixed_layout_go s pw fuel id cx).map Panel.width).sum =
        (s.wall_width_inches_total - cx) / s.wall_width_inches_total * 100 := by
  intro fuel
  induction fuel with
  | zero =>
    intro id cx hcx hb
    norm_num at hb
    linarith
  | succ m ih =>
    intro id cx hcx hb
    unfold fixed_layout_go
    rw [if_pos hcx]
    simp only [List.map_cons, List.sum_cons, mkPanel_width]
    by_cases h2 : cx + pw < s.wall_width_inches_total
    · have hmin : min pw (s.wall_width_inches_total - cx) = pw :=
        min_eq_left (by linarith)
      have hb' : s.wall_width_inches_total - (cx + pw) ≤ (m : ℚ) * pw := by
        push_cast at hb
        linarith
      rw [hmin, ih (id + 1) (cx + pw) h2 hb']
      ring
    · have hmin : min pw (s.wall_width_inches_total - cx) =
          s.wall_width_inches_total - cx :=
        min_eq_right (by linarith)
      rw [hmin, fixed_go_stop s pw m (id + 1) (cx + pw) h2]
      simp

lemma tiles_fixed_layout (s : LayoutState) (hW : 0 < s.wall_width_inches_total)
    (hpw : 0 < s.panel_width_inches_total) :
    fixed_layout s =
      some (fixed_layout_go s s.panel_width_inches_total
        (⌈s.wall_width_inches_total / s.panel_width_inches_total⌉).toNat 1 0) ∧
    tiles (fixed_layout_go s s.panel_width_inches_total
      (⌈s.wall_width_inches_total / s.panel_width_inches_total⌉).toNat 1 0) := by
  constructor
  · unfold fixed_layout
    rw [if_neg (not_le.mpr hpw)]
  · constructor
    · have h := chain_fixed_go s s.panel_width_inches_total
        (⌈s.wall_width_inches_total / s.panel_width_inches_total⌉).toNat 1 0
      simpa using h
    · have hceil0 : (0 : ℤ) ≤ ⌈s.wall_width_inches_total / s.panel_width_inches_total⌉ :=
        Int.ceil_nonneg (le_of_lt (div_pos hW hpw))
      have hb : s.wall_width_inches_total - 0 ≤
          (((⌈s.wall_width_inches_total / s.panel_width_inches_total⌉).toNat : ℕ) : ℚ) *
            s.panel_width_inches_total := by
        have hcast :
            (((⌈s.wall_width_inches_total / s.panel_width_inches_total⌉).toNat : ℕ) : ℚ) =
              ((⌈s.wall_width_inches_total / s.panel_width_inches_total⌉ : ℤ) : ℚ) := by
          exact_mod_cast congrArg (Int.cast : ℤ → ℚ) (Int.toNat_of_nonneg hceil0)
        rw [hcast, sub_zero]
        have hle : s.wall_width_inches_total / s.panel_width_inches_total ≤
            ((⌈s.wall_width_inches_total / s.panel_width_inches_total⌉ : ℤ) : ℚ) :=
          Int.le_ceil _
        exact (div_le_iff₀ hpw).mp hle
      have h := sum_fixed_go s s.panel_width_inches_total hpw
        (⌈s.wall_width_inches_total / s.panel_width_inches_total⌉).toNat 1 0
        (by linarith) hb
      rw [h, sub_zero, div_self (ne_of_gt hW)]
      norm_num

lemma tiles_equal_layout (s : LayoutState) (hW : 0 < s.wall_width_inches_total) :
    tiles (equal_layout s) := by
  unfold equal_layout
  have hcnt : 1 ≤ (max 1 s.panel_count_raw).toNat := by
    have h1 : (1 : ℤ) ≤ max 1 s.panel_count_raw := le_max_left 1 s.panel_count_raw
    omega
  have hc0 : (((max 1 s.panel_count_raw).toNat : ℕ) : ℚ) ≠ 0 := by
    have hpos : (0 : ℚ) < (((max 1 s.panel_count_raw).toNat : ℕ) : ℚ) := by
      exact_mod_cast Nat.lt_of_lt_of_le Nat.zero_lt_one hcnt
    exact ne_of_gt hpos
  constructor
  · have h := chain_panel_row s
      (s.wall_width_inches_total / (((max 1 s.panel_count_raw).toNat : ℕ) : ℚ))
      (max 1 s.panel_count_raw).toNat 1 0
    simpa using h
  · rw [sum_panel_row]
    field_simp
    ring

/-- Tiling for the center-equal generator when the center block fits. -/
lemma tiles_center_layout (s : LayoutState) (hW : 0 < s.wall_width_inches_total)
    (hfit : ((((max 1 s.center_panel_count_raw).toNat : ℕ)) : ℚ) * 48 ≤
      s.wall_width_inches_total) :
    ∃ ps, center_layout s = some ps ∧ tiles ps := by
  unfold center_layout
  rw [if_neg (not_lt.mpr hfit)]
  refine ⟨_, rfl, ?_⟩
  set W := s.wall_width_inches_total with hWdef
  set cnt := (max 1 s.center_panel_count_raw).toNat with hcntdef
  set side := (W - (cnt : ℚ) * 48) / 2 with hside
  have hWne : W ≠ 0 := ne_of_gt hW
  have hside0 : 0 ≤ side := by
    rw [hside]
    have : (cnt : ℚ) * 48 ≤ W := hfit
    linarith
  have hsum2 : 2 * side + (cnt : ℚ) * 48 = W := by
    rw [hside]; ring
  by_cases hs : 0 < side
  · simp only [if_pos hs]
    constructor
    · refine chain_append ?_ ?_
      · refine ⟨by rw [mkPanel_x], ?_⟩
        simp only [List.append_eq, List.nil_append, mkPanel_width]
        refine chain_map_range cnt _ (0 + side / W * 100) (48 / W * 100)
          (fun i _ => by rw [mkPanel_x]; ring) (fun i _ => by rw [mkPanel_width])
      · rw [List.map_append, List.sum_append]
        simp only [List.map_cons, List.map_nil, List.sum_cons, List.sum_nil,
          mkPanel_width, add_zero]
        rw [sum_map_range cnt _ (48 / W * 100) (fun i _ => mkPanel_width ..)]
        refine ⟨?_, trivial⟩
        rw [mkPanel_x]
        have hW2 : W - side = side + (cnt : ℚ) * 48 := by linarith
        rw [hW2]
        ring
    · rw [List.map_append, List.map_append, List.sum_append, List.sum_append,
        sum_map_range cnt _ (48 / W * 100) (fun i _ => mkPanel_width ..)]
      simp only [List.map_cons, List.map_nil, List.sum_cons, List.sum_nil,
        mkPanel_width, add_zero]
      field_simp
      linear_combination (100 : ℚ) * hsum2
  · have hs0 : side = 0 := le_antisymm (not_lt.mp hs) hside0
    simp only [if_neg hs]
    constructor
    · simp only [List.append_eq, List.nil_append, List.append_nil]
      refine chain_map_range cnt _ 0 (48 / W * 100)
        (fun i _ => by rw [mkPanel_x, hs0]; ring) (fun i _ => by rw [mkPanel_width])
    · simp only [List.append_eq, List.nil_append, List.append_nil]
      rw [sum_map_range cnt _ (48 / W * 100) (fun i _ => mkPanel_width ..)]
      have hcnt48 : (cnt : ℚ) * 48 = W := by
        have h2 := hsum2
        rw [hs0] at h2
        linarith
      field_simp
      linear_combination (100 : ℚ) * hcnt48

lemma seam_section_spec (secW pw : ℚ) (hsec : 0 < secW) (hpw : 0 < pw) :
    0 < (seam_section secW pw).1 ∧
      ((seam_section secW pw).1 : ℚ) * (seam_section secW pw).2 = secW := by
  unfold seam_section
  by_cases hfull : (⌊secW / pw⌋).toNat = 0
  · rw [if_pos hfull]
    exact ⟨one_pos, by push_cast; ring⟩
  · rw [if_neg hfull]
    by_cases hrem : 0 < secW - pw * ((⌊secW / pw⌋ : ℤ) : ℚ)
    · rw [if_pos hrem]
      refine ⟨Nat.succ_pos _, ?_⟩
      have hne : ((((⌊secW / pw⌋).toNat : ℕ) : ℚ) + 1) ≠ 0 := by positivity
      push_cast
      field_simp
    · rw [if_neg hrem]
      refine ⟨Nat.pos_of_ne_zero hfull, ?_⟩
      have hfl0 : (0 : ℤ) ≤ ⌊secW / pw⌋ :=
        Int.floor_nonneg.mpr (le_of_lt (div_pos hsec hpw))
      have hle : pw * ((⌊secW / pw⌋ : ℤ) : ℚ) ≤ secW := by
        have h1 : ((⌊secW / pw⌋ : ℤ) : ℚ) ≤ secW / pw := Int.floor_le _
        have h2 : pw * ((⌊secW / pw⌋ : ℤ) : ℚ) ≤ pw * (secW / pw) :=
          mul_le_mul_of_nonneg_left h1 (le_of_lt hpw)
        rwa [mul_div_cancel₀ secW (ne_of_gt hpw)] at h2
      have heq : secW = pw * ((⌊secW / pw⌋ : ℤ) : ℚ) := by
        have h3 := not_lt.mp hrem
        linarith
      have hcast : ((((⌊secW / pw⌋).toNat : ℕ)) : ℚ) = ((⌊secW / pw⌋ : ℤ) : ℚ) := by
        exact_mod_cast congrArg (Int.cast : ℤ → ℚ) (Int.toNat_of_nonneg hfl0)
      rw [hcast]
      linarith

lemma tiles_start_seam (s : LayoutState) (hW : 0 < s.wall_width_inches_total) :
    tiles (calculate_start_seam_panels s) := by
  unfold calculate_start_seam_panels
  by_cases hvalid : s.start_seam_position_inches ≤ 0 ∨
      s.wall_width_inches_total ≤ s.start_seam_position_inches
  · rw [if_pos hvalid]
    unfold calculate_equal_panels_fallback
    rw [range2]
    refine ⟨⟨?_, ?_, trivial⟩, ?_⟩
    · rw [mkPanel_x]; norm_num
    · rw [mkPanel_x, mkPanel_width]; norm_num
    · simp only [List.map_cons, List.map_nil, List.sum_cons, List.sum_nil,
        mkPanel_width]
      norm_num
  · rw [if_neg hvalid]
    push_neg at hvalid
    obtain ⟨hseam0, hseamW⟩ := hvalid
    have hWne : s.wall_width_inches_total ≠ 0 := ne_of_gt hW
    have hl : 0 < s.start_seam_position_inches := hseam0
    have hr : 0 < s.wall_width_inches_total - s.start_seam_position_inches := by
      linarith
    have hpw' : 0 < (if s.panel_width_inches_total ≤ 0 then (48 : ℚ)
        else s.panel_width_inches_total) := by
      by_cases h : s.panel_width_inches_total ≤ 0
      · rw [if_pos h]; norm_num
      · rw [if_neg h]; linarith [not_le.mp h]
    obtain ⟨hkL, hwL⟩ := seam_section_spec s.start_seam_position_inches _ hl hpw'
    obtain ⟨hkR, hwR⟩ := seam_section_spec
      (s.wall_width_inches_total - s.start_seam_position_inches) _ hr hpw'
    simp only [eq_true hl, eq_true hr, if_true]
    set L := seam_section s.start_seam_position_inches
      (if s.panel_width_inches_total ≤ 0 then (48 : ℚ)
        else s.panel_width_inches_total) with hLdef
    set R := seam_section
      (s.wall_width_inches_total - s.start_seam_position_inches)
      (if s.panel_width_inches_total ≤ 0 then (48 : ℚ)
        else s.panel_width_inches_total) with hRdef
    constructor
    · refine chain_append ?_ ?_
      · have h := chain_panel_row s L.2 L.1 1 0
        simpa using h
      · rw [sum_panel_row]
        have h := chain_panel_row s R.2 R.1 (1 + L.1) ((L.1 : ℚ) * L.2)
        have heq : ((L.1 : ℚ) * L.2) / s.wall_width_inches_total * 100 =
            0 + (L.1 : ℚ) * (L.2 / s.wall_width_inches_total * 100) := by
          ring
        rwa [heq] at h
    · rw [List.map_append, List.sum_append, sum_panel_row, sum_panel_row]
      have hsum : (L.1 : ℚ) * (L.2 / s.wall_width_inches_total * 100) +
          (R.1 : ℚ) * (R.2 / s.wall_width_inches_total * 100) =
          ((L.1 : ℚ) * L.2 + (R.1 : ℚ) * R.2) / s.wall_width_inches_total * 100 := by
        ring
      rw [hsum, hwL, hwR,
        show s.start_seam_position_inches +
            (s.wall_width_inches_total - s.start_seam_position_inches) =
          s.wall_width_inches_total by ring,
        div_self hWne]
      norm_num

/-- A 96-inch wall whose only layout input is a single 48-inch width
override for panel 1 — a valid override map (total below `1.05 × wall`). -/
def customUnderfullState : LayoutState :=
  ⟨96, 96, 48, 96, false, 2, false, 4, false, 0, false, 4, true, 0, [(1, 48)], [], []⟩

/-- Counterexample to C1 as stated: in the custom-override mode with an
override total (48") below the wall width (96"), the panel widths sum to 50
percent — not 100 within 1e-6 — so coverage fails for this layout mode. -/
theorem C1_counterexample :
    ((calculate_panels customUnderfullState).map Panel.width).sum = 50 ∧
    ¬ (pyabs (((calculate_panels customUnderfullState).map Panel.width).sum - 100) <
        1 / 1000000) := by
  have h : (calculate_panels customUnderfullState).map Panel.width = [48 * 1 / 96 * 100] := by
    unfold calculate_panels generated_panels customUnderfullState
    norm_num [use_custom_panels, usable_height_inches, custom_layout, custom_layout_go,
      process_split_panels, dictFind?, List.insertionSort, List.orderedInsert,
      List.find?]
  rw [h]
  norm_num [pyabs]

/-- C1 (amended): for every wall with positive width, height and usable
height, with no overrides and no splits recorded, the layout produced by any
of the four flag-selected generators tiles the wall exactly: prefix-sum
positions from `x = 0` and widths summing to exactly 100 percent (center
mode requires its block to fit; the fixed-width branch a positive panel
width).  The custom-override mode is excluded: with an override total below
the wall width its panels are gap-free from `x = 0` but cover only
`total / wallWidth` of the wall (see the counterexample). -/
theorem C1_amended_tiling (s : LayoutState)
    (hW : 0 < s.wall_width_inches_total)
    (hH : 0 < s.wall_height_inches_total)
    (hU : 0 < usable_height_inches s)
    (hcustom : s.custom_panel_widths = [])
    (hsplit : s.split_panels = [])
    (hcenter : s.center_panels = true →
      ((((max 1 s.center_panel_count_raw).toNat : ℕ)) : ℚ) * 48 ≤
        s.wall_width_inches_total)
    (hfixed : s.center_panels = false → s.use_start_seam = false →
      s.use_equal_panels = false → 0 < s.panel_width_inches_total) :
    tiles (calculate_panels s) := by
  have hguard0 : ¬ (s.wall_width_inches_total ≤ 0 ∨
      s.wall_height_inches_total ≤ 0) := by
    rintro (h | h) <;> linarith
  have hguard1 : ¬ (usable_height_inches s ≤ 0) := by linarith
  have hcustoff : use_custom_panels s = false := by
    unfold use_custom_panels
    rw [hcustom]
    rfl
  have hproc : ∀ ps, process_split_panels s ps = ps := by
    intro ps
    unfold process_split_panels
    rw [hsplit]
    rfl
  unfold calculate_panels generated_panels
  rw [if_neg hguard0, if_neg hguard1, hcustoff]
  simp only [Bool.false_eq_true, if_false]
  by_cases hcen : s.center_panels = true
  · rw [hcen]
    simp only [if_true]
    obtain ⟨ps, hps, htiles⟩ := tiles_center_layout s hW (hcenter hcen)
    rw [hps]
    show tiles (process_split_panels s ps)
    rw [hproc]
    exact htiles
  · have hcenF : s.center_panels = false := by
      revert hcen
      cases s.center_panels <;> simp
    rw [hcenF]
    simp only [Bool.false_eq_true, if_false]
    by_cases hseam : s.use_start_seam = true
    · rw [hseam]
      simp only [if_true]
      show tiles (process_split_panels s (calculate_start_seam_panels s))
      rw [hproc]
      exact tiles_start_seam s hW
    · have hseamF : s.use_start_seam = false := by
        revert hseam
        cases s.use_start_seam <;> simp
      rw [hseamF]
      simp only [Bool.false_eq_true, if_false]
      by_cases heq : s.use_equal_panels = true
      · rw [heq]
        simp only [if_true]
        show tiles (process_split_panels s (equal_layout s))
        rw [hproc]
        exact tiles_equal_layout s hW
      · have heqF : s.use_equal_panels = false := by
          revert heq
          cases s.use_equal_panels <;> simp
        rw [heqF]
        simp only [Bool.false_eq_true, if_false]
        obtain ⟨hfx, htiles⟩ := tiles_fixed_layout s hW (hfixed hcenF hseamF heqF)
        rw [hfx]
        show tiles (process_split_panels s _)
        rw [hproc]
        exact htiles

/-- Witness for C1 (amended): a 96-inch wall in equal-count mode with three
panels tiles exactly. -/
theorem C1_amended_tiling_witness :
    tiles (calculate_panels
      ⟨96, 96, 48, 96, true, 3, false, 4, false, 0, false, 4, true, 0, [], [], []⟩) :=
  C1_amended_tiling _ (by norm_num) (by norm_num)
    (by norm_num [usable_height_inches]) rfl rfl
    (fun h => absurd h (by simp)) (fun _ _ h => absurd h (by simp))

/-! ## Theorems: the start-seam Scenario C (C5) -/

@[simp] lemma mkPanel_actual_width (s : LayoutState) (id : ℕ) (x w wi : ℚ) :
    (mkPanel s id x w wi).actual_width = convert_to_feet_inches_fraction wi := rfl

/-- Scenario C of the spec: 96-inch wall, start-seam at 40 inches, fixed
panel width 48 inches. -/
def seamScenarioC : LayoutState :=
  ⟨96, 96, 48, 96, false, 2, false, 4, true, 40, false, 4, true, 0, [], [], []⟩

/-- Counterexample to C5 as stated: the layout has three panels, not two —
the right section's 8-inch remainder is distributed over `full + 1 = 2`
panels of 28 inches each, instead of one 56-inch panel. -/
theorem C5_counterexample :
    (calculate_panels seamScenarioC).length = 3 ∧
    ¬ ((calculate_panels seamScenarioC).length = 2) := by
  have h : (calculate_panels seamScenarioC).length = 3 := by
    unfold calculate_panels generated_panels seamScenarioC
      calculate_start_seam_panels seam_section process_split_panels
    norm_num [use_custom_panels, usable_height_inches, panel_row_length,
      show Int.toNat 0 = 0 from rfl, show Int.toNat 1 = 1 from rfl]
  exact ⟨h, by omega⟩

/-- C5 (amended): for the 96-inch wall with start-seam at 40 inches and
fixed width 48 inches, `calculate_panels` returns three panels: one 40-inch
panel spanning the left section, then two 28-inch panels filling the 56-inch
right section (its 8-inch remainder is spread equally over `full + 1 = 2`
panels). -/
theorem C5_amended_scenario_c :
    (calculate_panels seamScenarioC).map
        (fun p => (p.id, p.x, p.width, p.actual_width)) =
      [(1, 0, 125 / 3, ((3 : ℤ), (4 : ℤ), (0 : ℕ))),
       (2, 125 / 3, 175 / 6, ((2 : ℤ), (4 : ℤ), (0 : ℕ))),
       (3, 425 / 6, 175 / 6, ((2 : ℤ), (4 : ℤ), (0 : ℕ)))] := by
  unfold calculate_panels generated_panels seamScenarioC
    calculate_start_seam_panels seam_section process_split_panels
  norm_num [use_custom_panels, usable_height_inches, panel_row,
    show Int.toNat 0 = 0 from rfl, show Int.toNat 1 = 1 from rfl,
    conv40, conv28]

/-! ## Theorems: the split operation loses coverage (C2) -/

/-- A fresh 96-inch wall in fixed-width mode (48-inch panels, two panels),
with panel 2 selected for splitting. -/
def fixedSplitState : LayoutState :=
  ⟨96, 96, 48, 96, false, 2, false, 4, false, 0, false, 4, true, 0, [], [], [2]⟩

/-- The split record created by splitting panel 2 of `fixedSplitState`. -/
def splitInfo2 : SplitInfo := ⟨48, 24, 2, 3, 50, 75⟩

/-- The state after `split_selected_panel` on `fixedSplitState`: the split
record AND half-width custom overrides for both result ids. -/
def splitState1 : LayoutState :=
  ⟨96, 96, 48, 96, false, 2, false, 4, false, 0, false, 4, true, 0,
    [(2, 24), (3, 24)], [(2, splitInfo2)], [2, 3]⟩

lemma calc_fixedSplitState :
    calculate_panels fixedSplitState =
      [⟨1, 0, 50, (4, 0, 0), (8, 0, 0), true, none⟩,
       ⟨2, 50, 50, (4, 0, 0), (8, 0, 0), true, none⟩] := by
  unfold calculate_panels generated_panels fixedSplitState fixed_layout
    process_split_panels
  norm_num [use_custom_panels, usable_height_inches, fixed_layout_go, mkPanel,
    panel_height_df, conv96, conv48, show Int.toNat 2 = 2 from rfl]

lemma split_fixedSplitState :
    split_selected_panel fixedSplitState = some splitState1 := by
  unfold split_selected_panel
  rw [calc_fixedSplitState]
  norm_num [fixedSplitState, splitState1, splitInfo2, dictSet, dictDel,
    List.find?, List.foldl, show ((1 : ℕ) == 2) = false from rfl,
    show ((2 : ℕ) == 2) = true from rfl]

lemma calc_splitState1 :
    calculate_panels splitState1 =
      [⟨2, 0, 25, (2, 0, 0), (8, 0, 0), true, none⟩,
       ⟨3, 25, 25, (2, 0, 0), (8, 0, 0), true, none⟩] := by
  unfold calculate_panels generated_panels splitState1 custom_layout
    custom_layout_go process_split_panels process_split_go find_split_info
  norm_num [use_custom_panels, usable_height_inches, dictFind?, List.find?,
    List.foldl, List.insertionSort, List.orderedInsert, mkPanel,
    panel_height_df, conv96, conv24, splitInfo2, process_split_go,
    show ((2 : ℕ) == 3) = false from rfl, show ((3 : ℕ) == 3) = true from rfl,
    show ((2 : ℕ) == 2) = true from rfl]

/-- C2 is violated by the code: on a fresh 96-inch fixed-width layout
(two 48-inch panels), splitting panel 2 stores half-width overrides for ids
2 and 3; on recomputation those overrides activate the custom-override
branch, which builds panels from the override map alone — panel 1 vanishes.
The result has 2 panels (not 3: the count does not increase by 1) whose
widths sum to 50 percent (not 100): coverage is lost. -/
theorem C2_code_bug :
    (calculate_panels fixedSplitState).length = 2 ∧
    split_selected_panel fixedSplitState = some splitState1 ∧
    (calculate_panels splitState1).length = 2 ∧
    ((calculate_panels splitState1).map Panel.width).sum = 50 := by
  refine ⟨?_, split_fixedSplitState, ?_, ?_⟩
  · rw [calc_fixedSplitState]
    rfl
  · rw [calc_splitState1]
    rfl
  · rw [calc_splitState1]
    norm_num

/-! ## Theorems: splits and overrides are not mutually exclusive (C6) -/

lemma dictFind?_dictSet_self {α : Type} (d : List (ℕ × α)) (k : ℕ) (v : α) :
    dictFind? (dictSet d k v) k = some v := by
  unfold dictFind? dictSet
  by_cases h : d.any (fun e => e.1 == k)
  · rw [if_pos h]
    have key : ∀ l : List (ℕ × α), l.any (fun e => e.1 == k) = true →
        (l.map (fun e => if e.1 == k then (k, v) else e)).find?
          (fun e => e.1 == k) = some (k, v) := by
      intro l
      induction l with
      | nil => intro hl; simp at hl
      | cons e t ih =>
        intro hl
        by_cases he : (e.1 == k) = true
        · simp only [List.map_cons, if_pos he, List.find?_cons,
            show ((k : ℕ) == k) = true from by simp]
        · have he' : (e.1 == k) = false := by
            revert he; cases (e.1 == k) <;> simp
          simp only [List.any_cons, he', Bool.false_or] at hl
          simp only [List.map_cons, List.find?_cons, he', Bool.false_eq_true,
            if_false]
          exact ih hl
    rw [key d h]
    rfl
  · rw [if_neg h]
    have hfalse : d.any (fun e => e.1 == k) = false := by
      revert h; cases d.any (fun e => e.1 == k) <;> simp
    have key : ∀ l : List (ℕ × α), l.any (fun e => e.1 == k) = false →
        (l ++ [(k, v)]).find? (fun e => e.1 == k) = some (k, v) := by
      intro l
      induction l with
      | nil =>
        intro _
        simp only [List.nil_append, List.find?_cons,
          show ((k : ℕ) == k) = true from by simp]
      | cons e t ih =>
        intro hl
        simp only [List.any_cons, Bool.or_eq_false_iff] at hl
        simp only [List.cons_append, List.find?_cons, hl.1]
        exact ih hl.2
    rw [key d hfalse]
    rfl

lemma dictFind?_dictSet_ne {α : Type} (d : List (ℕ × α)) (k k' : ℕ) (v : α)
    (hne : k ≠ k') :
    dictFind? (dictSet d k' v) k = dictFind? d k := by
  unfold dictFind? dictSet
  by_cases h : d.any (fun e => e.1 == k')
  · rw [if_pos h]
    clear h
    congr 1
    induction d with
    | nil => rfl
    | cons e t ih =>
      by_cases he : (e.1 == k') = true
      · have hek' : e.1 = k' := by simpa using he
        have h1 : ((k' : ℕ) == k) = false := by
          simp [Ne.symm hne]
        have h2 : (e.1 == k) = false := by
          rw [hek']; exact h1
        simp only [List.map_cons, if_pos he, List.find?_cons, h1, h2]
        exact ih
      · simp only [List.map_cons, if_neg he, List.find?_cons]
        cases hk : (e.1 == k) with
        | true => rfl
        | false => exact ih
  · rw [if_neg h]
    congr 1
    induction d with
    | nil =>
      simp only [List.nil_append, List.find?_cons,
        show ((k' : ℕ) == k) = false from by simp [Ne.symm hne], List.find?_nil]
    | cons e t ih =>
      have h2 : ¬ (t.any fun e => e.1 == k') = true := by
        simp only [List.any_cons, Bool.or_eq_true] at h
        intro ht
        exact h (Or.inr ht)
      simp only [List.cons_append, List.find?_cons]
      cases hk : (e.1 == k) with
      | true => rfl
      | false => exact ih h2

lemma mem_dictSet_self {α : Type} (d : List (ℕ × α)) (k : ℕ) (v : α) :
    (k, v) ∈ dictSet d k v := by
  unfold dictSet
  by_cases h : d.any (fun e => e.1 == k)
  · rw [if_pos h]
    obtain ⟨e, he, hek⟩ := List.any_eq_true.mp h
    exact List.mem_map.mpr ⟨e, he, by rw [if_pos hek]⟩
  · rw [if_neg h]
    exact List.mem_append_right _ (List.mem_singleton.mpr rfl)

/-- Counterexample to C6 as stated: after splitting panel 2, the state holds
BOTH a split record keyed (and left-id'd) by 2 AND a width override for
id 2 — the split stores the half width as a custom override for both result
ids right after clearing the old one. -/
theorem C6_counterexample :
    split_selected_panel fixedSplitState = some splitState1 ∧
    dictFind? splitState1.custom_panel_widths 2 = some 24 ∧
    (2, splitInfo2) ∈ splitState1.split_panels ∧ splitInfo2.left_id = 2 := by
  refine ⟨split_fixedSplitState, ?_, ?_, rfl⟩
  · rfl
  · simp [splitState1]

/-- C6 (amended): a successful split on panel id `pid` leaves the state
with a width override for `pid` (and for the new right id) AND a split
record whose left id is `pid`: the two maps are not mutually exclusive.
A successful width override leaves the split records untouched (it clears
nothing). -/
theorem C6_amended_split_override_coexist :
    (∀ (s : LayoutState) (pid : ℕ) (s1 : LayoutState),
      s.selected_panels = [pid] → split_selected_panel s = some s1 →
      (∃ w, dictFind? s1.custom_panel_widths pid = some w) ∧
      (∃ info : SplitInfo, (pid, info) ∈ s1.split_panels ∧ info.left_id = pid)) ∧
    (∀ (s : LayoutState) (panel_id feet inches : ℤ) (k : ℕ) (s1 : LayoutState),
      apply_panel_width_adjustment s panel_id feet inches k = some s1 →
      s1.split_panels = s.split_panels) := by
  constructor
  · intro s pid s1 hsel hsplit
    have heval : split_selected_panel s =
        (match (calculate_panels s).find? (fun p => p.id == pid) with
         | none => none
         | some selected_panel =>
           some { s with
             custom_panel_widths :=
               dictSet (dictSet (dictDel s.custom_panel_widths pid) pid
                 (selected_panel.width / 100 * s.wall_width_inches_total / 2))
                 (((calculate_panels s).map Panel.id).foldl max 0 + 1)
                 (selected_panel.width / 100 * s.wall_width_inches_total / 2),
             split_panels :=
               dictSet (s.split_panels.filter
                 (fun e => !(e.2.left_id == pid || e.2.right_id == pid)))
                 pid
                 { original_width :=
                     selected_panel.width / 100 * s.wall_width_inches_total,
                   half_width :=
                     selected_panel.width / 100 * s.wall_width_inches_total / 2,
                   left_id := pid,
                   right_id := ((calculate_panels s).map Panel.id).foldl max 0 + 1,
                   left_x := (selected_panel.x / 100 * s.wall_width_inches_total) /
                     s.wall_width_inches_total * 100,
                   right_x := (selected_panel.x / 100 * s.wall_width_inches_total +
                     selected_panel.width / 100 * s.wall_width_inches_total / 2) /
                     s.wall_width_inches_total * 100 },
             center_panels := false,
             selected_panels :=
               [pid, ((calculate_panels s).map Panel.id).foldl max 0 + 1] }) := by
      unfold split_selected_panel
      rw [hsel]
    rw [heval] at hsplit
    cases hfind : (calculate_panels s).find? (fun p => p.id == pid) with
    | none =>
      rw [hfind] at hsplit
      exact absurd hsplit (by simp)
    | some sp =>
      rw [hfind] at hsplit
      have hs1 := (Option.some.injEq _ _).mp hsplit
      have hple : pid ≤ ((calculate_panels s).map Panel.id).foldl max 0 := by
        have hmem : sp ∈ calculate_panels s := List.mem_of_find?_eq_some hfind
        have hbeq := List.find?_some hfind
        have hid : sp.id = pid := by simpa using hbeq
        exact mem_le_foldl_max _ pid
          (hid ▸ List.mem_map_of_mem Panel.id hmem) 0
      have hne : pid ≠ ((calculate_panels s).map Panel.id).foldl max 0 + 1 := by
        omega
      constructor
      · refine ⟨sp.width / 100 * s.wall_width_inches_total / 2, ?_⟩
        rw [← hs1]
        rw [dictFind?_dictSet_ne _ _ _ _ hne, dictFind?_dictSet_self]
      · rw [← hs1]
        exact ⟨_, mem_dictSet_self _ _ _, rfl⟩
  · intro s panel_id feet inches k s1 h
    unfold apply_panel_width_adjustment at h
    by_cases h0 : convert_to_inches feet inches k ≤ 0
    · rw [if_pos h0] at h
      exact absurd h (by simp)
    · rw [if_neg h0] at h
      by_cases h1 : panel_id ≤ 0 ∨ 10 < panel_id
      · rw [if_pos h1] at h
        exact absurd h (by simp)
      · rw [if_neg h1] at h
        have hs1 := (Option.some.injEq _ _).mp h
        rw [← hs1]

/-- The state after applying a 4-foot width override to panel 1 on top of
`splitState1`. -/
def appliedState1 : LayoutState :=
  ⟨96, 96, 48, 96, false, 2, false, 4, false, 0, false, 4, true, 0,
    [(2, 24), (3, 24), (1, 48)], [(2, splitInfo2)], [2, 3]⟩

lemma apply_appliedState1 :
    apply_panel_width_adjustment splitState1 1 4 0 0 = some appliedState1 := by
  unfold apply_panel_width_adjustment splitState1 appliedState1
  norm_num [convert_to_inches, fraction_to_decimal, dictSet,
    show ((2 : ℕ) == 1) = false from rfl, show ((3 : ℕ) == 1) = false from rfl,
    show Int.toNat 1 = 1 from rfl]

/-- Witness for C6 (amended): the split of panel 2 overlaps both maps on
id 2, and a width override on panel 1 leaves the split records unchanged. -/
theorem C6_amended_split_override_coexist_witness :
    ((∃ w, dictFind? splitState1.custom_panel_widths 2 = some w) ∧
      (∃ info : SplitInfo, (2, info) ∈ splitState1.split_panels ∧
        info.left_id = 2)) ∧
    appliedState1.split_panels = splitState1.split_panels :=
  ⟨C6_amended_split_override_coexist.1 fixedSplitState 2 splitState1 rfl
      split_fixedSplitState,
    C6_amended_split_override_coexist.2 splitState1 1 4 0 0 appliedState1
      apply_appliedState1⟩

end Shop
